import Mathlib

/-
  Shallow embedding of the test-mode synthetic store of the betterstatuspage
  repository: the Status Projection Engine, the Incident Lifecycle Manager
  (create / update / delete on the test-mode route), the demo-mode item
  tracker and its cleanup sweep.

  Sources embedded:
  - src/app/api/statuspage/incidents/[id]/route.ts (test-mode route,
    third document in the file): GET projection (lines 406-466),
    POST create (494-579), PATCH update (581-691), DELETE (693-723).
  - src/unnamed/part_001 (demo-tracker): track / remove / clear operations.
  - src/unnamed/part_005 (cleanup cron route): the sweep loop.

  Modelling conventions:
  - ISO timestamp strings are abstracted as Nat; fields that may be absent in
    the JSON value (undefined) are Option-typed.
  - Statuses are Strings: the route performs no enum validation (the spec
    names this ValidationGap), so the embedding does not either.
  - The JavaScript a || b default on string-valued fields is embedded by
    jsOr / jsOrOpt / jsOrD, which treat the empty string like undefined
    (both are falsy in JavaScript).
  - The route keeps the affected-component ids in a Set and only tests
    membership; the embedding keeps them in a List and tests membership.
-/

namespace StatusPage

/-- A component record (src/lib/types.ts ComponentSchema, restricted to the
fields the claims are about; description stands for the remaining
spread-preserved fields). created_at and updated_at are optional because the
stub snapshot built for an unknown component id omits them. -/
structure Component where
  id : String
  name : String
  description : Option String
  status : String
  created_at : Option Nat
  updated_at : Option Nat
deriving DecidableEq, Repr, Inhabited

/-- An entry of an incident's append-mostly update log
(src/lib/types.ts IncidentUpdateSchema). body is optional because the route
stores the result of a || chain whose operands may all be undefined. -/
structure IncidentUpdate where
  id : String
  status : String
  body : Option String
  created_at : Nat
  updated_at : Nat
  display_at : Nat
deriving DecidableEq, Repr

/-- An incident record (src/lib/types.ts IncidentSchema plus the body and
component_ids fields the test-mode route stores). -/
structure Incident where
  id : String
  name : String
  status : String
  impact : String
  body : Option String
  components : List Component
  component_ids : List String
  incident_updates : List IncidentUpdate
  created_at : Nat
  updated_at : Nat
deriving DecidableEq, Repr

/-- A template record (route.ts TestData.templates entries). -/
structure Template where
  id : String
  name : String
  body : Option String
  created_at : Nat
  updated_at : Nat
deriving DecidableEq, Repr

/-- The whole persisted test-mode document (route.ts interface TestData). -/
structure TestData where
  components : List Component
  incidents : List Incident
  templates : List Template
deriving DecidableEq, Repr

/-- JavaScript a || b where a is an optional string and the result must be a
string: undefined and the empty string are falsy. -/
def jsOr (a : Option String) (b : String) : String :=
  match a with
  | some s => if s = "" then b else s
  | none => b

/-- JavaScript a || b where both operands are optional strings. -/
def jsOrOpt (a b : Option String) : Option String :=
  match a with
  | some s => if s = "" then b else some s
  | none => b

/-- JavaScript a || b on plain strings (empty string is falsy). -/
def jsOrD (a b : String) : String := if a = "" then b else a

/-- An incident is open iff its status is neither resolved nor postmortem
(route.ts 408-410). -/
def Incident.isOpen (inc : Incident) : Bool :=
  inc.status != "resolved" && inc.status != "postmortem"

/-- A snapshot status contributes a claim iff it is truthy and not
operational (route.ts 419 and 444). -/
def claimStatus (s : String) : Bool :=
  s != "" && s != "operational"

/-- The component ids collected into the affected set by the open incidents
(route.ts 413-424). The route stores them in a Set; only membership is ever
used, so a list is kept here. -/
def affectedIds (openIncs : List Incident) : List String :=
  openIncs.flatMap fun inc =>
    inc.components.filterMap fun c =>
      if claimStatus c.status then some c.id else none

/-- The reset condition of the reset pass (route.ts 429). -/
def needsReset (aff : List String) (c : Component) : Bool :=
  decide (c.id ∉ aff) && c.status != "operational"

/-- The image of one component under the reset pass (route.ts 429-436). -/
def resetEntry (aff : List String) (now : Nat) (c : Component) : Component :=
  if needsReset aff c then
    { c with status := "operational", updated_at := some now }
  else c

/-- Reset pass (route.ts 426-437): every stored component that is not in the
affected set and is not operational is set to operational with a fresh
updated_at; the boolean records whether any entry was rewritten. -/
def resetPass (comps : List Component) (aff : List String) (now : Nat) :
    List Component × Bool :=
  (comps.map (resetEntry aff now), comps.any (needsReset aff))

/-- One claim application of the apply pass (route.ts 445-455): find the
first stored component with the claimed id and overwrite its status if it
differs, refreshing updated_at; the boolean records whether a write
happened. -/
def applyClaim (now : Nat) (cid st : String) : List Component → List Component × Bool
  | [] => ([], false)
  | c :: rest =>
    if c.id = cid then
      if c.status = st then (c :: rest, false)
      else ({ c with status := st, updated_at := some now } :: rest, true)
    else
      let r := applyClaim now cid st rest
      (c :: r.1, r.2)

/-- Fold step threading the components list and the componentsUpdated flag
through one claim. -/
def applyStep (now : Nat) (acc : List Component × Bool) (p : String × String) :
    List Component × Bool :=
  let r := applyClaim now p.1 p.2 acc.1
  (r.1, acc.2 || r.2)

/-- Apply pass (route.ts 439-460): iterate the open incidents in stored
order, and inside each incident its component snapshots in stored order,
applying every claim with a truthy non-operational status. -/
def applyPass (now : Nat) (start : List Component × Bool) (openIncs : List Incident) :
    List Component × Bool :=
  openIncs.foldl
    (fun acc inc =>
      inc.components.foldl
        (fun acc2 c =>
          if claimStatus c.status then applyStep now acc2 (c.id, c.status) else acc2)
        acc)
    start

/-- The Status Projection Engine (route.ts 406-466): filter the open
incidents, run the reset pass then the apply pass, and report whether
either pass changed anything (the route persists the document iff the flag
is true). -/
def projectComponents (comps : List Component) (incs : List Incident) (now : Nat) :
    List Component × Bool :=
  let openIncs := incs.filter Incident.isOpen
  let aff := affectedIds openIncs
  let r := resetPass comps aff now
  let a := applyPass now (r.1, false) openIncs
  (a.1, r.2 || a.2)

/-- The components field of an incident payload: absent, the map form
keyed by component id (kept as an association list in JSON key order), or
the array-of-snapshots form (route.ts 509 and 538). -/
inductive ComponentsPayload where
  | missing
  | mapForm (entries : List (String × String))
  | arrayForm (comps : List Component)
deriving DecidableEq, Repr

/-- Normalize a map-form components payload against the stored component
list (route.ts 513-523 and 645-655): look each id up in the store and stamp
the claimed status over the found record, falling back to a stub snapshot
when the id is unknown. The stub carries no description or timestamps. -/
def normalizeEntries (store : List Component) (entries : List (String × String)) :
    List Component :=
  entries.map fun p =>
    match store.find? (fun c => c.id == p.1) with
    | some comp => { comp with status := p.2 }
    | none =>
      { id := p.1, name := "Component " ++ p.1, description := none,
        status := p.2, created_at := none, updated_at := none }

/-- Overwrite the status of the first stored component with the given id,
refreshing updated_at, without any differs check (route.ts 527-534 and
659-666); an unknown id is left alone. -/
def overwriteStatus (cid st : String) (now : Nat) : List Component → List Component
  | [] => []
  | c :: rest =>
    if c.id = cid then { c with status := st, updated_at := some now } :: rest
    else c :: overwriteStatus cid st now rest

/-- Apply every map-form entry to the stored component list in order
(route.ts 526-535 and 658-667). -/
def mutateStore (store : List Component) (entries : List (String × String)) (now : Nat) :
    List Component :=
  entries.foldl (fun s p => overwriteStatus p.1 p.2 now s) store

/-- The body of a create-incident request (route.ts 506-560; name, status,
body are required by CreateIncidentRequest in src/lib/types.ts, impact and
component_ids are defaulted by the route). -/
structure CreateIncidentBody where
  name : String
  status : String
  impact : String
  body : String
  components : ComponentsPayload
  component_ids : Option (List String)
deriving DecidableEq, Repr

/-- The intermediate save performed by the create route in the map-form
branch (route.ts 512-537): a fresh read of the document (equal to the
document at entry, nothing was saved yet) whose components got the claimed
statuses stamped in, written to disk before the incident itself is saved.
Returns none when the branch is not taken. -/
def createIncidentSnapshotSave (d : TestData) (body : CreateIncidentBody) (now : Nat) :
    Option TestData :=
  match body.components with
  | .mapForm entries => some { d with components := mutateStore d.components entries now }
  | _ => none

/-- Create an incident (route.ts 506-563). id1 and id2 stand for the two
generated test ids. The final save writes the testData object that was read
at the start of the request, whose components were never mutated (the
mutation happened on the separately read testDataSnapshot object), so the
final document keeps the original component list: the intermediate
snapshot save of createIncidentSnapshotSave is overwritten. -/
def createIncident (d : TestData) (body : CreateIncidentBody) (id1 id2 : String)
    (now : Nat) : TestData × Incident :=
  let componentsArray : List Component :=
    match body.components with
    | .mapForm entries => normalizeEntries d.components entries
    | .arrayForm a => a
    | .missing => []
  let newIncident : Incident :=
    { id := id1, name := body.name, status := body.status,
      impact := jsOrD body.impact "minor", body := some body.body,
      components := componentsArray,
      component_ids := body.component_ids.getD [],
      incident_updates :=
        [{ id := id2, status := body.status, body := some body.body,
           created_at := now, updated_at := now, display_at := now }],
      created_at := now, updated_at := now }
  ({ d with incidents := newIncident :: d.incidents }, newIncident)

/-- The incident_update object of a PATCH payload (route.ts 624-636). -/
structure IncidentUpdatePayload where
  status : Option String
  body : Option String
  display_at : Option Nat
deriving DecidableEq, Repr

/-- A PATCH payload for an incident (route.ts 581-691), restricted to the
fields the route reads; an Option field is absent from the JSON when none. -/
structure PatchIncidentBody where
  incident_update : Option IncidentUpdatePayload
  name : Option String
  status : Option String
  impact : Option String
  body : Option String
  components : ComponentsPayload
deriving DecidableEq, Repr

/-- findIndex combined with the element found there. -/
def findWithIdx (p : α → Bool) : List α → Option (Nat × α)
  | [] => none
  | a :: l => if p a then some (0, a) else (findWithIdx p l).map fun q => (q.1 + 1, q.2)

/-- PATCH an incident (route.ts 610-691). In add-update mode (a truthy
incident_update in the payload) a new update entry is appended whose status
defaults to the incident's current status and whose body defaults to the
payload's top-level body field, and the incident's top-level status is set
from the payload's top-level status field; in replace mode the provided
fields are shallow-merged, a map-form components payload is normalized and
replaces the prior array only when non-empty. As in create, the replace
mode's component-store mutation is saved on a separately read snapshot and
then overwritten by the final save, so the returned document keeps the
original component list. Returns none when no incident has the id (404). -/
def patchIncident (d : TestData) (tid : String) (body : PatchIncidentBody)
    (uid : String) (now : Nat) : Option (TestData × Incident) :=
  match findWithIdx (fun inc => inc.id == tid) d.incidents with
  | none => none
  | some (idx, inc) =>
    match body.incident_update with
    | some iu =>
      let newUpdate : IncidentUpdate :=
        { id := uid,
          status := jsOr iu.status inc.status,
          body := jsOrOpt iu.body body.body,
          created_at := now, updated_at := now,
          display_at := iu.display_at.getD now }
      let inc' :=
        { inc with
          incident_updates := inc.incident_updates ++ [newUpdate],
          status := jsOr body.status inc.status,
          updated_at := now }
      some ({ d with incidents := d.incidents.set idx inc' }, inc')
    | none =>
      let componentsArray : List Component :=
        match body.components with
        | .mapForm entries => normalizeEntries d.components entries
        | .arrayForm a => a
        | .missing => inc.components
      let inc' :=
        { inc with
          name := body.name.getD inc.name,
          status := body.status.getD inc.status,
          impact := body.impact.getD inc.impact,
          body := body.body.or inc.body,
          components := if componentsArray.length > 0 then componentsArray else inc.components,
          updated_at := now }
      some ({ d with incidents := d.incidents.set idx inc' }, inc')

/-- DELETE an incident (route.ts 693-723): filter the incident list by id;
when the length did not shrink the route answers 404 without saving
(modelled by none), otherwise the filtered document is saved. -/
def deleteIncident (d : TestData) (tid : String) : Option TestData :=
  let filtered := d.incidents.filter fun inc => !(inc.id == tid)
  if filtered.length = d.incidents.length then none
  else some { d with incidents := filtered }

/-- The demo-mode tracker document (part_001 DemoTracker). -/
structure DemoTracker where
  incidents : List String
  components : List String
  templates : List String
  lastCleanup : Option Nat
deriving DecidableEq, Repr

/-- The tracker document as first created (part_001 getDemoTracker fallback). -/
def emptyTracker : DemoTracker :=
  { incidents := [], components := [], templates := [], lastCleanup := none }

/-- trackIncident (part_001 53-61): a no-op unless demo mode is on; appends
the id only when it is not already tracked. -/
def trackIncident (demo : Bool) (t : DemoTracker) (id : String) : DemoTracker :=
  if !demo then t
  else if t.incidents.contains id then t
  else { t with incidents := t.incidents ++ [id] }

/-- trackComponent (part_001 66-74). -/
def trackComponent (demo : Bool) (t : DemoTracker) (id : String) : DemoTracker :=
  if !demo then t
  else if t.components.contains id then t
  else { t with components := t.components ++ [id] }

/-- trackTemplate (part_001 79-87). -/
def trackTemplate (demo : Bool) (t : DemoTracker) (id : String) : DemoTracker :=
  if !demo then t
  else if t.templates.contains id then t
  else { t with templates := t.templates ++ [id] }

/-- removeTrackedIncident (part_001 111-115): filters the id out, with no
demo-mode gate. -/
def removeTrackedIncident (t : DemoTracker) (id : String) : DemoTracker :=
  { t with incidents := t.incidents.filter fun i => !(i == id) }

/-- removeTrackedComponent (part_001 117-121). -/
def removeTrackedComponent (t : DemoTracker) (id : String) : DemoTracker :=
  { t with components := t.components.filter fun i => !(i == id) }

/-- removeTrackedTemplate (part_001 123-127). -/
def removeTrackedTemplate (t : DemoTracker) (id : String) : DemoTracker :=
  { t with templates := t.templates.filter fun i => !(i == id) }

/-- clearTrackedItems (part_001 99-106). -/
def clearTrackedItems (t : DemoTracker) (now : Nat) : DemoTracker :=
  { t with incidents := [], components := [], templates := [], lastCleanup := some now }

/-- One mutating tracker operation (part_001 exported mutators). -/
inductive TrackerOp where
  | trackInc (id : String)
  | trackComp (id : String)
  | trackTmpl (id : String)
  | removeInc (id : String)
  | removeComp (id : String)
  | removeTmpl (id : String)
  | clearAll (now : Nat)
deriving DecidableEq, Repr

/-- Apply one tracker operation under the process-wide demo flag. -/
def applyTrackerOp (demo : Bool) (t : DemoTracker) : TrackerOp → DemoTracker
  | .trackInc id => trackIncident demo t id
  | .trackComp id => trackComponent demo t id
  | .trackTmpl id => trackTemplate demo t id
  | .removeInc id => removeTrackedIncident t id
  | .removeComp id => removeTrackedComponent t id
  | .removeTmpl id => removeTrackedTemplate t id
  | .clearAll now => clearTrackedItems t now

/-- The live delete call's observable outcome: none for a thrown network
error (the catch branch), some code for an HTTP response status. -/
def httpSuccess : Option Nat → Bool
  | none => false
  | some code => (200 ≤ code && code < 300) || code == 404

/-- The evolving state of one cleanup run (part_005 49-51): the persisted
tracker plus the deleted and errors report lists. The response body text
appended to an error entry is not modelled; an error entry keeps the
kind:id prefix only. -/
structure SweepState where
  tracker : DemoTracker
  deleted : List String
  errors : List String
deriving DecidableEq, Repr

/-- The incident loop of the cleanup sweep (part_005 54-77): iterate the
snapshot list of tracked incident ids; on HTTP success or 404 untrack the
id and record it as deleted, otherwise leave it tracked and collect an
error entry. -/
def sweepIncidents (resp : String → Option Nat) (st : SweepState)
    (ids : List String) : SweepState :=
  ids.foldl
    (fun st id =>
      if httpSuccess (resp id) then
        { st with tracker := removeTrackedIncident st.tracker id,
                  deleted := st.deleted ++ ["incident:" ++ id] }
      else
        { st with errors := st.errors ++ ["incident:" ++ id] })
    st

/-- The template loop of the cleanup sweep (part_005 80-103). -/
def sweepTemplates (resp : String → Option Nat) (st : SweepState)
    (ids : List String) : SweepState :=
  ids.foldl
    (fun st id =>
      if httpSuccess (resp id) then
        { st with tracker := removeTrackedTemplate st.tracker id,
                  deleted := st.deleted ++ ["template:" ++ id] }
      else
        { st with errors := st.errors ++ ["template:" ++ id] })
    st

/-- The whole cleanup sweep (part_005 GET, 48-114): read the tracker, run
the incident loop then the template loop over the snapshot id lists;
tracked components are intentionally never deleted. respInc and respTmpl
give the live system's response to each delete call. -/
def runCleanup (t : DemoTracker) (respInc respTmpl : String → Option Nat) : SweepState :=
  let st0 : SweepState := { tracker := t, deleted := [], errors := [] }
  let st1 := sweepIncidents respInc st0 t.incidents
  sweepTemplates respTmpl st1 t.templates

/-
  Specification-side machinery for reasoning about the projection: the
  nested apply-pass iteration is flattened into one claim list, iterated in
  the same order.
-/

/-- The claim contributed by one incident component snapshot, when any. -/
def toClaim (c : Component) : Option (String × String) :=
  if claimStatus c.status then some (c.id, c.status) else none

/-- All claims of the open incidents, flattened in iteration order:
incident stored order first, snapshot order inside an incident second. -/
def claimsOf (openIncs : List Incident) : List (String × String) :=
  openIncs.flatMap fun inc => inc.components.filterMap toClaim

/-- Fold the apply step over a flat claim list. -/
def claimsFold (now : Nat) (start : List Component × Bool) (cs : List (String × String)) :
    List Component × Bool :=
  cs.foldl (applyStep now) start

/-- The component-list part of the claim fold, without the changed flag. -/
def claimsFoldList (now : Nat) : List Component → List (String × String) → List Component
  | l, [] => l
  | l, p :: cs => claimsFoldList now (applyClaim now p.1 p.2 l).1 cs

/-- The statuses claimed for one component id, in iteration order. -/
def claimsFor (cs : List (String × String)) (cid : String) : List String :=
  cs.filterMap fun p => if p.1 = cid then some p.2 else none

/-- The last element of a list, or a default when empty. -/
def lastD (d : String) : List String → String
  | [] => d
  | a :: rest => lastD a rest

theorem claimsFor_cons (a : String × String) (cs : List (String × String)) (cid : String) :
    claimsFor (a :: cs) cid =
      if a.1 = cid then a.2 :: claimsFor cs cid else claimsFor cs cid := by
  simp only [claimsFor, List.filterMap_cons]
  split <;> simp_all

theorem claimsFor_eq_nil_iff (cs : List (String × String)) (cid : String) :
    claimsFor cs cid = [] ↔ cid ∉ cs.map Prod.fst := by
  induction cs with
  | nil => simp [claimsFor]
  | cons a cs ih =>
    rw [claimsFor_cons]
    by_cases h : a.1 = cid
    · simp [h]
    · simp [h, ih, Ne.symm h]

theorem lastD_eq_of_getLast? (l : List String) (s : String) (h : l.getLast? = some s) :
    ∀ d, lastD d l = s := by
  induction l with
  | nil => simp at h
  | cons a rest ih =>
    intro d
    match rest, ih with
    | [], _ => simp_all [lastD, List.getLast?]
    | b :: t, ih =>
      rw [List.getLast?_cons_cons] at h
      exact ih h a

theorem lastD_mem (l : List String) (d : String) (h : l ≠ []) : lastD d l ∈ l := by
  induction l generalizing d with
  | nil => simp at h
  | cons a rest ih =>
    match rest with
    | [] => simp [lastD]
    | b :: t =>
      simp only [lastD]
      exact List.mem_cons_of_mem a (ih a (by simp))

theorem lastD_irrel (l : List String) (h : l ≠ []) (d d' : String) :
    lastD d l = lastD d' l := by
  cases l with
  | nil => simp at h
  | cons a rest => rfl

theorem claimsFold_fst (now : Nat) (cs : List (String × String)) :
    ∀ (l : List Component) (b : Bool),
      (claimsFold now (l, b) cs).1 = claimsFoldList now l cs := by
  induction cs with
  | nil => intro l b; rfl
  | cons p cs ih =>
    intro l b
    simp only [claimsFold, List.foldl_cons] at *
    exact ih (applyClaim now p.1 p.2 l).1 _

theorem inner_foldl_eq (now : Nat) (cs : List Component) :
    ∀ acc : List Component × Bool,
      cs.foldl
        (fun acc2 c =>
          if claimStatus c.status then applyStep now acc2 (c.id, c.status) else acc2)
        acc
      = claimsFold now acc (cs.filterMap toClaim) := by
  induction cs with
  | nil => intro acc; rfl
  | cons c rest ih =>
    intro acc
    simp only [List.foldl_cons, List.filterMap_cons, toClaim]
    by_cases h : claimStatus c.status
    · simp only [h, if_pos, reduceIte]
      rw [ih]
      rfl
    · simp only [h, Bool.false_eq_true, if_neg, reduceIte]
      rw [ih]

theorem claimsFold_append (now : Nat) (acc : List Component × Bool)
    (cs₁ cs₂ : List (String × String)) :
    claimsFold now acc (cs₁ ++ cs₂) = claimsFold now (claimsFold now acc cs₁) cs₂ :=
  List.foldl_append ..

theorem applyPass_eq_claimsFold (now : Nat) (openIncs : List Incident) :
    ∀ start, applyPass now start openIncs = claimsFold now start (claimsOf openIncs) := by
  induction openIncs with
  | nil => intro start; rfl
  | cons inc rest ih =>
    intro start
    simp only [applyPass, List.foldl_cons, claimsOf, List.flatMap_cons] at *
    rw [claimsFold_append, ← inner_foldl_eq]
    exact ih _

theorem affectedIds_eq (openIncs : List Incident) :
    affectedIds openIncs = (claimsOf openIncs).map Prod.fst := by
  simp only [affectedIds, claimsOf, List.map_flatMap, List.map_filterMap]
  congr 1
  funext inc
  congr 1
  funext c
  simp only [toClaim]
  split <;> rfl

/-- The fields of a component that the projection never touches. -/
def Component.frame (c : Component) : String × String × Option String × Option Nat :=
  (c.id, c.name, c.description, c.created_at)

theorem applyClaim_map_frame (now : Nat) (cid st : String) :
    ∀ l : List Component,
      ((applyClaim now cid st l).1).map Component.frame = l.map Component.frame := by
  intro l
  induction l with
  | nil => rfl
  | cons c rest ih =>
    simp only [applyClaim]
    by_cases h : c.id = cid
    · by_cases h2 : c.status = st <;> simp [h, h2, Component.frame]
    · simp [h, ih]

theorem applyClaim_map_id (now : Nat) (cid st : String) (l : List Component) :
    ((applyClaim now cid st l).1).map Component.id = l.map Component.id := by
  have h := applyClaim_map_frame now cid st l
  have e : ∀ m : List Component, m.map Component.id = (m.map Component.frame).map Prod.fst := by
    intro m
    rw [List.map_map]
    rfl
  rw [e, e, h]

theorem applyClaim_getElem_ne (now : Nat) (cid st : String) :
    ∀ (l : List Component) (i : Nat) (c : Component),
      l[i]? = some c → c.id ≠ cid →
      (applyClaim now cid st l).1[i]? = some c := by
  intro l
  induction l with
  | nil => intro i c h; simp at h
  | cons a rest ih =>
    intro i c h hne
    cases i with
    | zero =>
      simp only [List.getElem?_cons_zero, Option.some_inj] at h
      subst h
      simp [applyClaim, if_neg hne]
    | succ i =>
      simp only [List.getElem?_cons_succ] at h
      simp only [applyClaim]
      by_cases ha : a.id = cid
      · by_cases h2 : a.status = st <;> simp [ha, h2, h]
      · simp only [if_neg ha]
        simpa using ih i c h hne

theorem applyClaim_getElem_first (now : Nat) (cid st : String) :
    ∀ (l : List Component) (i : Nat) (c : Component),
      l[i]? = some c → c.id = cid →
      (∀ j cj, j < i → l[j]? = some cj → cj.id ≠ cid) →
      (applyClaim now cid st l).1[i]? =
        some (if c.status = st then c
              else { c with status := st, updated_at := some now }) := by
  intro l
  induction l with
  | nil => intro i c h; simp at h
  | cons a rest ih =>
    intro i c h hc hfirst
    cases i with
    | zero =>
      simp only [List.getElem?_cons_zero, Option.some_inj] at h
      subst h
      simp only [applyClaim, if_pos hc]
      by_cases h2 : a.status = st <;> simp [h2]
    | succ i =>
      simp only [List.getElem?_cons_succ] at h
      have ha : a.id ≠ cid := hfirst 0 a (Nat.zero_lt_succ i) (by simp)
      simp only [applyClaim, if_neg ha]
      have := ih i c h hc fun j cj hj hcj =>
        hfirst (j + 1) cj (Nat.succ_lt_succ hj) (by simpa using hcj)
      simpa using this

theorem applyClaim_getElem_after (now : Nat) (cid st : String) :
    ∀ (l : List Component) (i j : Nat) (c cj : Component),
      j < i → l[j]? = some cj → cj.id = cid → l[i]? = some c →
      (applyClaim now cid st l).1[i]? = some c := by
  intro l
  induction l with
  | nil => intro i j c cj _ hj; simp at hj
  | cons a rest ih =>
    intro i j c cj hji hj hcj hi
    cases j with
    | zero =>
      simp only [List.getElem?_cons_zero, Option.some_inj] at hj
      subst hj
      obtain ⟨i', rfl⟩ : ∃ i', i = i' + 1 := ⟨i - 1, (Nat.succ_pred_eq_of_pos hji).symm⟩
      simp only [List.getElem?_cons_succ] at hi
      simp only [applyClaim, if_pos hcj]
      by_cases h2 : a.status = st <;> simp [h2, hi]
    | succ j =>
      obtain ⟨i', rfl⟩ : ∃ i', i = i' + 1 :=
        ⟨i - 1, (Nat.succ_pred_eq_of_pos (Nat.lt_of_le_of_lt (Nat.zero_le _) hji)).symm⟩
      simp only [List.getElem?_cons_succ] at hj hi
      simp only [applyClaim]
      by_cases ha : a.id = cid
      · by_cases h2 : a.status = st <;> simp [ha, h2, hi]
      · simp only [if_neg ha]
        simpa using ih i' j c cj (Nat.lt_of_succ_lt_succ hji) hj hcj hi

theorem firstOcc_transfer {l l' : List Component}
    (h : l'.map Component.id = l.map Component.id) {i : Nat} {x : String}
    (hfirst : ∀ j cj, j < i → l[j]? = some cj → cj.id ≠ x) :
    ∀ j cj, j < i → l'[j]? = some cj → cj.id ≠ x := by
  intro j cj hj hcj
  have hm : (l'[j]?).map Component.id = (l[j]?).map Component.id := by
    rw [← List.getElem?_map, ← List.getElem?_map, h]
  rw [hcj] at hm
  cases hl : l[j]? with
  | none => rw [hl] at hm; simp at hm
  | some cj0 =>
    rw [hl] at hm
    simp only [Option.map_some'] at hm
    have hid : cj.id = cj0.id := by injection hm
    rw [hid]
    exact hfirst j cj0 hj hl

theorem occ_transfer {l l' : List Component}
    (h : l'.map Component.id = l.map Component.id) {j : Nat} {cj : Component}
    (hj : l[j]? = some cj) :
    ∃ cj', l'[j]? = some cj' ∧ cj'.id = cj.id := by
  have hm : (l'[j]?).map Component.id = (l[j]?).map Component.id := by
    rw [← List.getElem?_map, ← List.getElem?_map, h]
  rw [hj] at hm
  cases hl : l'[j]? with
  | none => rw [hl] at hm; simp at hm
  | some cj' =>
    rw [hl] at hm
    simp only [Option.map_some'] at hm
    exact ⟨cj', rfl, by injection hm⟩

theorem claimsFoldList_unclaimed (now : Nat) :
    ∀ (cs : List (String × String)) (l : List Component) (i : Nat) (c : Component),
      l[i]? = some c → claimsFor cs c.id = [] →
      (claimsFoldList now l cs)[i]? = some c := by
  intro cs
  induction cs with
  | nil => intro l i c h _; exact h
  | cons p cs ih =>
    intro l i c h hcl
    rw [claimsFor_cons] at hcl
    by_cases hp : p.1 = c.id
    · simp [hp] at hcl
    · rw [if_neg hp] at hcl
      simp only [claimsFoldList]
      exact ih _ i c (applyClaim_getElem_ne now p.1 p.2 l i c h fun hh => hp hh.symm) hcl

theorem claimsFoldList_first (now : Nat) :
    ∀ (cs : List (String × String)) (l : List Component) (i : Nat) (c : Component),
      l[i]? = some c →
      (∀ j cj, j < i → l[j]? = some cj → cj.id ≠ c.id) →
      (claimsFoldList now l cs)[i]? =
        some { c with
          status := lastD c.status (claimsFor cs c.id),
          updated_at := if (claimsFor cs c.id).all (fun s => s == c.status)
                        then c.updated_at else some now } := by
  intro cs
  induction cs with
  | nil =>
    intro l i c h _
    simpa [claimsFor, lastD] using h
  | cons p cs ih =>
    intro l i c h hfirst
    simp only [claimsFoldList, claimsFor_cons]
    have hids := applyClaim_map_id now p.1 p.2 l
    by_cases hp : p.1 = c.id
    · have hfirst' : ∀ j cj, j < i → l[j]? = some cj → cj.id ≠ p.1 := fun j cj hj hcj hh =>
        hfirst j cj hj hcj (hh.trans hp)
      have happ := applyClaim_getElem_first now p.1 p.2 l i c h hp.symm hfirst'
      by_cases hs : c.status = p.2
      · rw [if_pos hs] at happ
        have hres := ih (applyClaim now p.1 p.2 l).1 i c happ
          (firstOcc_transfer hids hfirst)
        rw [if_pos hp, hres]
        simp only [hs, lastD, List.all_cons, beq_self_eq_true, Bool.true_and]
      · rw [if_neg hs] at happ
        have hres := ih (applyClaim now p.1 p.2 l).1 i
          { c with status := p.2, updated_at := some now } happ
          (firstOcc_transfer hids hfirst)
        rw [if_pos hp, hres]
        have hbeq : (p.2 == c.status) = false := by
          simp only [beq_eq_false_iff_ne, ne_eq]
          exact fun hh => hs hh.symm
        simp [lastD, List.all_cons, hbeq]
    · have happ := applyClaim_getElem_ne now p.1 p.2 l i c h fun hh => hp hh.symm
      have hres := ih (applyClaim now p.1 p.2 l).1 i c happ
        (firstOcc_transfer hids hfirst)
      rw [if_neg hp]
      exact hres

theorem claimsFoldList_after (now : Nat) :
    ∀ (cs : List (String × String)) (l : List Component) (i j : Nat) (c cj : Component),
      j < i → l[j]? = some cj → cj.id = c.id → l[i]? = some c →
      (claimsFoldList now l cs)[i]? = some c := by
  intro cs
  induction cs with
  | nil => intro l i j c cj _ _ _ hi; exact hi
  | cons p cs ih =>
    intro l i j c cj hji hj hcj hi
    simp only [claimsFoldList]
    have hids := applyClaim_map_id now p.1 p.2 l
    obtain ⟨cj', hj', hid'⟩ := occ_transfer hids hj
    by_cases hp : p.1 = c.id
    · have hi' := applyClaim_getElem_after now p.1 p.2 l i j c cj hji hj (hcj.trans hp.symm) hi
      exact ih _ i j c cj' hji hj' (hid'.trans hcj) hi'
    · have hi' := applyClaim_getElem_ne now p.1 p.2 l i c hi fun hh => hp hh.symm
      exact ih _ i j c cj' hji hj' (hid'.trans hcj) hi'

theorem claimsFoldList_map_frame (now : Nat) :
    ∀ (cs : List (String × String)) (l : List Component),
      (claimsFoldList now l cs).map Component.frame = l.map Component.frame := by
  intro cs
  induction cs with
  | nil => intro l; rfl
  | cons p cs ih =>
    intro l
    simp only [claimsFoldList]
    rw [ih, applyClaim_map_frame]

theorem map_id_of_map_frame {l l' : List Component}
    (h : l'.map Component.frame = l.map Component.frame) :
    l'.map Component.id = l.map Component.id := by
  have e : ∀ m : List Component, m.map Component.id = (m.map Component.frame).map Prod.fst := by
    intro m
    rw [List.map_map]
    rfl
  rw [e, e, h]

theorem resetEntry_id (aff : List String) (now : Nat) (c : Component) :
    (resetEntry aff now c).id = c.id := by
  simp only [resetEntry]
  split <;> rfl

theorem resetEntry_frame (aff : List String) (now : Nat) (c : Component) :
    (resetEntry aff now c).frame = c.frame := by
  simp only [resetEntry]
  split <;> rfl

theorem resetEntry_of_affected (aff : List String) (now : Nat) (c : Component)
    (h : c.id ∈ aff) : resetEntry aff now c = c := by
  simp [resetEntry, needsReset, h]

theorem resetEntry_of_operational (aff : List String) (now : Nat) (c : Component)
    (h : c.status = "operational") : resetEntry aff now c = c := by
  simp [resetEntry, needsReset, h]

theorem resetEntry_status_of_not_affected (aff : List String) (now : Nat) (c : Component)
    (h : c.id ∉ aff) : (resetEntry aff now c).status = "operational" := by
  simp only [resetEntry, needsReset, h, decide_not, decide_True, not_false_eq_true,
    Bool.true_and]
  by_cases hs : c.status = "operational"
  · simp [hs]
  · simp [hs, bne_iff_ne]

theorem resetPass_map_id (comps : List Component) (aff : List String) (now : Nat) :
    ((resetPass comps aff now).1).map Component.id = comps.map Component.id := by
  simp only [resetPass, List.map_map]
  congr 1
  funext c
  exact resetEntry_id aff now c

theorem projectComponents_fst (comps : List Component) (incs : List Incident) (now : Nat) :
    (projectComponents comps incs now).1
      = claimsFoldList now
          (comps.map (resetEntry (affectedIds (incs.filter Incident.isOpen)) now))
          (claimsOf (incs.filter Incident.isOpen)) := by
  simp only [projectComponents, resetPass]
  rw [applyPass_eq_claimsFold, claimsFold_fst]

theorem projectComponents_map_frame (comps : List Component) (incs : List Incident)
    (now : Nat) :
    ((projectComponents comps incs now).1).map Component.frame
      = comps.map Component.frame := by
  rw [projectComponents_fst, claimsFoldList_map_frame, List.map_map]
  congr 1
  funext c
  exact resetEntry_frame _ now c

theorem projectComponents_map_id (comps : List Component) (incs : List Incident)
    (now : Nat) :
    ((projectComponents comps incs now).1).map Component.id = comps.map Component.id :=
  map_id_of_map_frame (projectComponents_map_frame comps incs now)

theorem projectComponents_length (comps : List Component) (incs : List Incident)
    (now : Nat) :
    ((projectComponents comps incs now).1).length = comps.length := by
  have h := projectComponents_map_id comps incs now
  have := congrArg List.length h
  simpa using this

theorem project_getElem_not_affected (comps : List Component) (incs : List Incident)
    (now : Nat) (i : Nat) (c : Component)
    (h : comps[i]? = some c)
    (haff : c.id ∉ affectedIds (incs.filter Incident.isOpen)) :
    (projectComponents comps incs now).1[i]?
      = some (resetEntry (affectedIds (incs.filter Incident.isOpen)) now c) := by
  rw [projectComponents_fst]
  have hreset :
      (comps.map (resetEntry (affectedIds (incs.filter Incident.isOpen)) now))[i]?
        = some (resetEntry (affectedIds (incs.filter Incident.isOpen)) now c) := by
    rw [List.getElem?_map, h]
    rfl
  apply claimsFoldList_unclaimed now _ _ i _ hreset
  rw [resetEntry_id, claimsFor_eq_nil_iff, ← affectedIds_eq]
  exact haff

theorem project_getElem_first (comps : List Component) (incs : List Incident)
    (now : Nat) (i : Nat) (c : Component)
    (h : comps[i]? = some c)
    (haff : c.id ∈ affectedIds (incs.filter Incident.isOpen))
    (hfirst : ∀ j cj, j < i → comps[j]? = some cj → cj.id ≠ c.id) :
    (projectComponents comps incs now).1[i]?
      = some { c with
          status := lastD c.status
            (claimsFor (claimsOf (incs.filter Incident.isOpen)) c.id),
          updated_at :=
            if (claimsFor (claimsOf (incs.filter Incident.isOpen)) c.id).all
                (fun s => s == c.status)
            then c.updated_at else some now } := by
  rw [projectComponents_fst]
  have hrid : (comps.map (resetEntry (affectedIds (incs.filter Incident.isOpen)) now)).map
      Component.id = comps.map Component.id := by
    have := resetPass_map_id comps (affectedIds (incs.filter Incident.isOpen)) now
    simpa [resetPass] using this
  have hreset :
      (comps.map (resetEntry (affectedIds (incs.filter Incident.isOpen)) now))[i]?
        = some c := by
    rw [List.getElem?_map, h]
    simp [resetEntry_of_affected _ now c haff]
  exact claimsFoldList_first now _ _ i c hreset (firstOcc_transfer hrid hfirst)

theorem project_getElem_after (comps : List Component) (incs : List Incident)
    (now : Nat) (i j : Nat) (c cj : Component)
    (hji : j < i) (hj : comps[j]? = some cj) (hcj : cj.id = c.id)
    (h : comps[i]? = some c)
    (haff : c.id ∈ affectedIds (incs.filter Incident.isOpen)) :
    (projectComponents comps incs now).1[i]? = some c := by
  rw [projectComponents_fst]
  have hrid : (comps.map (resetEntry (affectedIds (incs.filter Incident.isOpen)) now)).map
      Component.id = comps.map Component.id := by
    have := resetPass_map_id comps (affectedIds (incs.filter Incident.isOpen)) now
    simpa [resetPass] using this
  have hreset :
      (comps.map (resetEntry (affectedIds (incs.filter Incident.isOpen)) now))[i]?
        = some c := by
    rw [List.getElem?_map, h]
    simp [resetEntry_of_affected _ now c haff]
  obtain ⟨cj', hj', hid'⟩ := occ_transfer hrid hj
  exact claimsFoldList_after now _ _ i j c cj' hji hj' (hid'.trans hcj) hreset

theorem firstOcc_of_nodup {comps : List Component}
    (hnd : (comps.map Component.id).Nodup) {i : Nat} {c : Component}
    (h : comps[i]? = some c) :
    ∀ j cj, j < i → comps[j]? = some cj → cj.id ≠ c.id := by
  intro j cj hj hcj heq
  have hji : (comps.map Component.id)[j]? = (comps.map Component.id)[i]? := by
    rw [List.getElem?_map, List.getElem?_map, h, hcj]
    simp [heq]
  have hilen : i < comps.length := by
    obtain ⟨hlt, -⟩ := List.getElem?_eq_some.mp h
    exact hlt
  have hjlen : j < (comps.map Component.id).length := by
    simpa using Nat.lt_trans hj hilen
  have := List.getElem?_inj hjlen hnd hji
  omega

/-- The fields of a component that the Projection Engine must leave alone
are equal (everything except status and updated_at). -/
def frameEq (c c' : Component) : Prop :=
  c'.id = c.id ∧ c'.name = c.name ∧ c'.description = c.description ∧
    c'.created_at = c.created_at

theorem forall2_of_map_frame :
    ∀ l l' : List Component, l'.map Component.frame = l.map Component.frame →
      List.Forall₂ frameEq l l' := by
  intro l
  induction l with
  | nil =>
    intro l' h
    cases l' with
    | nil => exact List.Forall₂.nil
    | cons b t => simp at h
  | cons a rest ih =>
    intro l' h
    cases l' with
    | nil => simp at h
    | cons b t =>
      simp only [List.map_cons, List.cons.injEq] at h
      refine List.Forall₂.cons ?_ (ih t h.2)
      have hf := h.1
      simp only [Component.frame, Prod.mk.injEq] at hf
      exact ⟨hf.1, hf.2.1, hf.2.2.1, hf.2.2.2⟩

/-- C1. Reset invariant with closed-incident exclusion: a stored component
whose id is not claimed with a non-operational status by any open incident
(incidents with status resolved or postmortem are filtered out before the
affected set is built, whatever their stored components arrays say) comes
out of the projection with status operational. -/
theorem reset_invariant (comps : List Component) (incs : List Incident)
    (now : Nat) (i : Nat) (c : Component)
    (h : comps[i]? = some c)
    (haff : c.id ∉ affectedIds (incs.filter Incident.isOpen)) :
    ∃ c', (projectComponents comps incs now).1[i]? = some c' ∧
      c'.id = c.id ∧ c'.status = "operational" :=
  ⟨_, project_getElem_not_affected comps incs now i c h haff,
   resetEntry_id _ now c, resetEntry_status_of_not_affected _ now c haff⟩

/-- Concrete component builder for the witnesses. -/
def wComp (cid st : String) : Component :=
  { id := cid, name := "Component " ++ cid, description := none, status := st,
    created_at := some 0, updated_at := some 0 }

/-- Concrete incident builder for the witnesses. -/
def wIncident (iid st : String) (snaps : List Component) : Incident :=
  { id := iid, name := "Incident " ++ iid, status := st, impact := "minor",
    body := some "body", components := snaps,
    component_ids := snaps.map Component.id,
    incident_updates := [], created_at := 0, updated_at := 0 }

/-- Witness for C1: a single component left non-operational by a resolved
incident is reset to operational by the projection. -/
theorem reset_invariant_witness :
    ∃ c', (projectComponents [wComp "a" "major_outage"]
        [wIncident "i1" "resolved" [wComp "a" "major_outage"]] 5).1[0]? = some c' ∧
      c'.id = "a" ∧ c'.status = "operational" := by
  obtain ⟨c', h1, h2, h3⟩ :=
    reset_invariant [wComp "a" "major_outage"]
      [wIncident "i1" "resolved" [wComp "a" "major_outage"]] 5 0
      (wComp "a" "major_outage") (by decide) (by decide)
  exact ⟨c', h1, by rw [h2]; rfl, h3⟩

/-- C2. Apply invariant with last-iterated-incident tie-break: when the
stored component ids are distinct, a stored component claimed by at least
one open incident comes out of the projection carrying the last claimed
status in iteration order (incident stored order, then snapshot order). -/
theorem apply_invariant (comps : List Component) (incs : List Incident)
    (now : Nat) (i : Nat) (c : Component) (s : String)
    (hnd : (comps.map Component.id).Nodup)
    (h : comps[i]? = some c)
    (hlast : (claimsFor (claimsOf (incs.filter Incident.isOpen)) c.id).getLast?
      = some s) :
    ∃ c', (projectComponents comps incs now).1[i]? = some c' ∧
      c'.id = c.id ∧ c'.status = s := by
  have hne : claimsFor (claimsOf (incs.filter Incident.isOpen)) c.id ≠ [] := by
    intro hnil
    rw [hnil] at hlast
    simp at hlast
  have haff : c.id ∈ affectedIds (incs.filter Incident.isOpen) := by
    rw [affectedIds_eq]
    by_contra hmem
    exact hne ((claimsFor_eq_nil_iff _ _).mpr hmem)
  refine ⟨_, project_getElem_first comps incs now i c h haff
    (firstOcc_of_nodup hnd h), rfl, ?_⟩
  exact lastD_eq_of_getLast? _ s hlast c.status

/-- Witness for C2: two open incidents claim different statuses for the
same component; the later incident in stored order wins. -/
theorem apply_invariant_witness :
    ∃ c', (projectComponents [wComp "a" "operational"]
        [wIncident "i1" "investigating" [wComp "a" "major_outage"],
         wIncident "i2" "identified" [wComp "a" "partial_outage"]] 5).1[0]?
        = some c' ∧
      c'.id = "a" ∧ c'.status = "partial_outage" := by
  obtain ⟨c', h1, h2, h3⟩ :=
    apply_invariant [wComp "a" "operational"]
      [wIncident "i1" "investigating" [wComp "a" "major_outage"],
       wIncident "i2" "identified" [wComp "a" "partial_outage"]] 5 0
      (wComp "a" "operational") "partial_outage"
      (by decide) (by decide) (by decide)
  exact ⟨c', h1, by rw [h2]; rfl, h3⟩

/-- C7. Frame property of the projection: the resulting component list has
the same length and order as the stored one, and every entry keeps its id,
name, description and created_at — only status and updated_at can change.
In particular no component is added (a claimed id absent from the store is
ignored), none is removed, and none is reordered. -/
theorem projection_frame (comps : List Component) (incs : List Incident) (now : Nat) :
    List.Forall₂ frameEq comps (projectComponents comps incs now).1 :=
  forall2_of_map_frame comps _ (projectComponents_map_frame comps incs now)

/-- C3 (amended). Value-level idempotence of the projection: running the
engine a second time on the result of a first run (with the same timestamp)
returns the same component list. The no-second-write half of the original
claim is refuted by projection_second_write_counterexample. -/
theorem projection_idempotent (comps : List Component) (incs : List Incident)
    (now : Nat) :
    (projectComponents (projectComponents comps incs now).1 incs now).1
      = (projectComponents comps incs now).1 := by
  apply List.ext_getElem?
  intro i
  by_cases hi : i < comps.length
  case neg =>
    have hlen1 : (projectComponents comps incs now).1.length = comps.length :=
      projectComponents_length ..
    have hlen2 : (projectComponents (projectComponents comps incs now).1 incs now).1.length
        = (projectComponents comps incs now).1.length := projectComponents_length ..
    rw [List.getElem?_eq_none, List.getElem?_eq_none] <;> omega
  case pos =>
    obtain ⟨c, hc⟩ : ∃ c, comps[i]? = some c := ⟨comps[i], List.getElem?_eq_getElem hi⟩
    by_cases haff : c.id ∈ affectedIds (incs.filter Incident.isOpen)
    case neg =>
      have h1 := project_getElem_not_affected comps incs now i c hc haff
      have hid1 : (resetEntry (affectedIds (incs.filter Incident.isOpen)) now c).id
          = c.id := resetEntry_id ..
      have hst1 : (resetEntry (affectedIds (incs.filter Incident.isOpen)) now c).status
          = "operational" := resetEntry_status_of_not_affected _ now c haff
      have haff1 : (resetEntry (affectedIds (incs.filter Incident.isOpen)) now c).id
          ∉ affectedIds (incs.filter Incident.isOpen) := by rw [hid1]; exact haff
      have h2 := project_getElem_not_affected (projectComponents comps incs now).1
        incs now i _ h1 haff1
      rw [h2, h1]
      congr 1
      exact resetEntry_of_operational _ now _ hst1
    case pos =>
      by_cases hex : ∃ j, j < i ∧ ∃ cj, comps[j]? = some cj ∧ cj.id = c.id
      case pos =>
        obtain ⟨j, hji, cj, hj, hcj⟩ := hex
        have h1 := project_getElem_after comps incs now i j c cj hji hj hcj hc haff
        obtain ⟨cj', hj', hid'⟩ :=
          occ_transfer (projectComponents_map_id comps incs now) hj
        have h2 := project_getElem_after (projectComponents comps incs now).1 incs now
          i j c cj' hji hj' (hid'.trans hcj) h1 haff
        rw [h2, h1]
      case neg =>
        push_neg at hex
        have hfirst : ∀ j cj, j < i → comps[j]? = some cj → cj.id ≠ c.id :=
          fun j cj hj hcj => hex j hj cj hcj
        have h1 := project_getElem_first comps incs now i c hc haff hfirst
        have hrfne : claimsFor (claimsOf (incs.filter Incident.isOpen)) c.id ≠ [] := by
          rw [Ne, claimsFor_eq_nil_iff, ← affectedIds_eq]
          exact fun hh => hh haff
        have hfirst1 := firstOcc_transfer (projectComponents_map_id comps incs now) hfirst
        have h2 := project_getElem_first (projectComponents comps incs now).1 incs now
          i _ h1 haff hfirst1
        rw [h2, h1]
        congr 1
        have hlast : lastD (lastD c.status (claimsFor (claimsOf
            (incs.filter Incident.isOpen)) c.id)) (claimsFor (claimsOf
            (incs.filter Incident.isOpen)) c.id)
            = lastD c.status (claimsFor (claimsOf (incs.filter Incident.isOpen)) c.id) :=
          lastD_irrel _ hrfne _ _
        by_cases hall : (claimsFor (claimsOf (incs.filter Incident.isOpen)) c.id).all
            (fun s => s == lastD c.status (claimsFor (claimsOf
              (incs.filter Incident.isOpen)) c.id))
        case pos =>
          simp only [hlast, hall, if_true]
        case neg =>
          have hallc : ¬ (claimsFor (claimsOf (incs.filter Incident.isOpen)) c.id).all
              (fun s => s == c.status) := by
            intro hac
            apply hall
            have hmem := lastD_mem (claimsFor (claimsOf
              (incs.filter Incident.isOpen)) c.id) c.status hrfne
            have heq : lastD c.status (claimsFor (claimsOf
                (incs.filter Incident.isOpen)) c.id) = c.status := by
              have := List.all_eq_true.mp hac _ hmem
              exact eq_of_beq this
            rw [heq]
            exact hac
          simp only [hlast, hall, hallc, if_false, Bool.false_eq_true, if_neg,
            not_false_eq_true]
/-- Counterexample to C3 as stated: with two open incidents claiming
different statuses for the same component, the second projection run on the
first run's output still reports a change (the apply pass first overwrites
the stored last-claim status with the earlier incident's claim, then writes
it back), so the route performs a second persisting write even though the
component list is unchanged. -/
theorem projection_second_write_counterexample :
    (projectComponents
      (projectComponents [wComp "a" "operational"]
        [wIncident "i1" "investigating" [wComp "a" "major_outage"],
         wIncident "i2" "identified" [wComp "a" "partial_outage"]] 5).1
      [wIncident "i1" "investigating" [wComp "a" "major_outage"],
       wIncident "i2" "identified" [wComp "a" "partial_outage"]] 5).2 = true := by
  decide

/-- C4 (code bug evaluation). Creating an incident with the map payload
c1 to major_outage against a store holding c1 as operational: the stored
incident's components array holds exactly the c1/major_outage snapshot, and
the intermediate snapshot save does set the stored c1 to major_outage, but
the final save writes the stale pre-mutation document, so the resulting
stored component c1 is still operational — the claimed mutation of the live
component store does not survive the create operation. -/
theorem create_map_roundtrip_eval :
    (createIncident
        { components := [wComp "c1" "operational"], incidents := [], templates := [] }
        { name := "n", status := "investigating", impact := "", body := "b",
          components := .mapForm [("c1", "major_outage")], component_ids := none }
        "i1" "u1" 7).2.components.map (fun c => (c.id, c.status))
      = [("c1", "major_outage")]
    ∧ (createIncidentSnapshotSave
        { components := [wComp "c1" "operational"], incidents := [], templates := [] }
        { name := "n", status := "investigating", impact := "", body := "b",
          components := .mapForm [("c1", "major_outage")], component_ids := none }
        7).map (fun t => t.components.map fun c => (c.id, c.status))
      = some [("c1", "major_outage")]
    ∧ (createIncident
        { components := [wComp "c1" "operational"], incidents := [], templates := [] }
        { name := "n", status := "investigating", impact := "", body := "b",
          components := .mapForm [("c1", "major_outage")], component_ids := none }
        "i1" "u1" 7).1.components.map (fun c => (c.id, c.status))
      = [("c1", "operational")] := by
  decide

/-- Document used by the C5 add-update counterexample and witness. -/
def w5doc : TestData :=
  { components := [], incidents := [wIncident "i1" "investigating" []], templates := [] }

/-- Payload used by the C5 add-update counterexample and witness: an
incident_update carrying only a status, no top-level fields. -/
def w5body : PatchIncidentBody :=
  { incident_update := some { status := some "monitoring", body := none, display_at := none },
    name := none, status := none, impact := none, body := none, components := .missing }

/-- Counterexample to C5 as stated: updating the incident (current status
investigating, current body some body) with a payload whose incident_update
carries status monitoring and nothing else appends an update with status
monitoring and body none — so the appended body is the payload's missing
top-level body, not the incident's current body — and the incident's
top-level status stays investigating instead of being promoted to the new
update's status monitoring. -/
theorem add_update_promotion_counterexample :
    (patchIncident w5doc "i1" w5body "u1" 9).map
        (fun r => (r.2.status, r.2.body,
          r.2.incident_updates.map fun u => (u.status, u.body, u.display_at)))
      = some ("investigating", some "body", [("monitoring", none, 9)]) := by
  decide

/-- C5 (amended). Add-update mode: a payload carrying an incident_update
object appends exactly one new IncidentUpdate whose status defaults to the
incident's current status when the update payload omits it, whose body
defaults to the payload's top-level body field (not the incident's current
body), and whose display_at defaults to now; the incident's top-level
status is set from the payload's top-level status field when provided and
is otherwise left unchanged (it is not promoted to the new update's
status); updated_at is refreshed and nothing else in the document
changes. -/
theorem add_update_mode (d : TestData) (tid : String) (body : PatchIncidentBody)
    (uid : String) (now : Nat) (idx : Nat) (inc : Incident)
    (iu : IncidentUpdatePayload)
    (hfind : findWithIdx (fun j => j.id == tid) d.incidents = some (idx, inc))
    (hiu : body.incident_update = some iu) :
    ∃ d' inc', patchIncident d tid body uid now = some (d', inc') ∧
      inc'.incident_updates = inc.incident_updates ++
        [{ id := uid, status := jsOr iu.status inc.status,
           body := jsOrOpt iu.body body.body,
           created_at := now, updated_at := now,
           display_at := iu.display_at.getD now }] ∧
      inc'.status = jsOr body.status inc.status ∧
      inc'.name = inc.name ∧ inc'.impact = inc.impact ∧ inc'.body = inc.body ∧
      inc'.components = inc.components ∧ inc'.updated_at = now ∧
      d'.incidents = d.incidents.set idx inc' ∧
      d'.components = d.components ∧ d'.templates = d.templates := by
  simp only [patchIncident, hfind, hiu]
  exact ⟨_, _, rfl, rfl, rfl, rfl, rfl, rfl, rfl, rfl, rfl, rfl, rfl⟩

/-- Witness for C5: the amended behavior at the counterexample input. -/
theorem add_update_mode_witness :
    ∃ d' inc', patchIncident w5doc "i1" w5body "u1" 9 = some (d', inc') ∧
      inc'.status = "investigating" ∧
      inc'.incident_updates.map (fun u => (u.status, u.body, u.display_at))
        = [("monitoring", none, 9)] := by
  obtain ⟨d', inc', h1, hupds, hstat, -⟩ :=
    add_update_mode w5doc "i1" w5body "u1" 9 0 (wIncident "i1" "investigating" [])
      { status := some "monitoring", body := none, display_at := none }
      (by decide) (by decide)
  refine ⟨d', inc', h1, ?_, ?_⟩
  · rw [hstat]
    rfl
  · rw [hupds]
    rfl

/-- Incident used by the C6 replace-mode witness. -/
def w6inc : Incident := wIncident "i1" "investigating" [wComp "old" "major_outage"]

/-- Document used by the C6 replace-mode witness. -/
def w6doc : TestData :=
  { components := [wComp "c1" "operational"], incidents := [w6inc], templates := [] }

/-- Payload used by the C6 replace-mode witness: no incident_update key, a
top-level status, and a map-form components payload. -/
def w6body : PatchIncidentBody :=
  { incident_update := none, name := none, status := some "identified",
    impact := none, body := none, components := .mapForm [("c1", "major_outage")] }

/-- C6. Replace mode: a payload with no incident_update key shallow-merges
the provided fields into the incident record; a map-form components
payload is normalized against the stored component list and replaces the
incident's prior components array only when the normalized result is
non-empty — an empty normalized array leaves the prior array untouched. -/
theorem replace_mode_components_guard (d : TestData) (tid : String)
    (body : PatchIncidentBody) (uid : String) (now : Nat) (idx : Nat) (inc : Incident)
    (entries : List (String × String))
    (hfind : findWithIdx (fun j => j.id == tid) d.incidents = some (idx, inc))
    (hiu : body.incident_update = none)
    (hcm : body.components = .mapForm entries) :
    ∃ d' inc', patchIncident d tid body uid now = some (d', inc') ∧
      inc'.name = body.name.getD inc.name ∧
      inc'.status = body.status.getD inc.status ∧
      inc'.impact = body.impact.getD inc.impact ∧
      inc'.body = body.body.or inc.body ∧
      inc'.updated_at = now ∧
      inc'.incident_updates = inc.incident_updates ∧
      inc'.components = (if (normalizeEntries d.components entries).length > 0
        then normalizeEntries d.components entries else inc.components) ∧
      (normalizeEntries d.components entries = [] →
        inc'.components = inc.components) ∧
      d'.incidents = d.incidents.set idx inc' ∧
      d'.components = d.components ∧ d'.templates = d.templates := by
  simp only [patchIncident, hfind, hiu, hcm]
  refine ⟨_, _, rfl, rfl, rfl, rfl, rfl, rfl, rfl, rfl, ?_, rfl, rfl, rfl⟩
  intro hnil
  simp [hnil]

/-- Witness for C6: the non-empty normalized map replaces the prior
snapshot array and the provided status field is merged in. -/
theorem replace_mode_components_guard_witness :
    ∃ d' inc', patchIncident w6doc "i1" w6body "u1" 9 = some (d', inc') ∧
      inc'.components.map (fun c => (c.id, c.status)) = [("c1", "major_outage")] ∧
      inc'.status = "identified" := by
  obtain ⟨d', inc', h1, hname, hstat, himp, hbody, hupd, hlog, hcomps, hempty, -⟩ :=
    replace_mode_components_guard w6doc "i1" w6body "u1" 9 0 w6inc
      [("c1", "major_outage")] (by decide) (by decide) (by decide)
  refine ⟨d', inc', h1, ?_, ?_⟩
  · rw [hcomps]
    decide
  · rw [hstat]
    rfl

/-- C8. Incident delete: the route answers not-found (none, with the
document left unsaved) exactly when no stored incident has the id; on
success the incident list is the id-filtered list while components and
templates are untouched; and when the stored incident ids are distinct and
the id is present, exactly one record is removed and every other incident
survives. -/
theorem delete_incident_spec (d : TestData) (tid : String) :
    (deleteIncident d tid = none ↔ ∀ inc ∈ d.incidents, inc.id ≠ tid) ∧
    (∀ d', deleteIncident d tid = some d' →
      d'.incidents = d.incidents.filter (fun inc => !(inc.id == tid)) ∧
      d'.components = d.components ∧ d'.templates = d.templates) ∧
    ((d.incidents.map Incident.id).Nodup →
      ∀ inc ∈ d.incidents, inc.id = tid →
      ∃ d', deleteIncident d tid = some d' ∧
        d'.incidents.length + 1 = d.incidents.length ∧
        ∀ j ∈ d.incidents, j.id ≠ tid → j ∈ d'.incidents) := by
  refine ⟨⟨?_, ?_⟩, ?_, ?_⟩
  · intro hnone inc hmem heq2
    have hlen : (d.incidents.filter fun j => !(j.id == tid)).length
        = d.incidents.length := by
      by_contra hne
      simp [deleteIncident, hne] at hnone
    have heq : d.incidents.filter (fun j => !(j.id == tid)) = d.incidents :=
      (List.filter_sublist _).eq_of_length hlen
    have := List.filter_eq_self.mp heq inc hmem
    simp [heq2] at this
  · intro hall
    have heq : d.incidents.filter (fun j => !(j.id == tid)) = d.incidents :=
      List.filter_eq_self.mpr (by
        intro a ha
        simpa using hall a ha)
    simp [deleteIncident, heq]
  · intro d' hd'
    have hne : ¬ ((d.incidents.filter fun j => !(j.id == tid)).length
        = d.incidents.length) := by
      intro hlen
      simp [deleteIncident, hlen] at hd'
    simp only [deleteIncident, if_neg hne, Option.some_inj] at hd'
    subst hd'
    exact ⟨rfl, rfl, rfl⟩
  · intro hnd inc hmem hid
    obtain ⟨s, t, hsplit⟩ := List.append_of_mem hmem
    rw [hsplit] at hnd
    rw [List.map_append, List.map_cons] at hnd
    obtain ⟨hnds, hndt, hdisj⟩ := List.nodup_append.mp hnd
    have hs : ∀ a ∈ s, a.id ≠ tid := by
      intro a ha heq
      apply hdisj (List.mem_map_of_mem _ ha)
      rw [heq, ← hid]
      exact List.mem_cons_self ..
    have ht2 : ∀ a ∈ t, a.id ≠ tid := by
      intro a ha heq
      have hnomem : inc.id ∉ t.map Incident.id := (List.nodup_cons.mp hndt).1
      apply hnomem
      rw [hid, ← heq]
      exact List.mem_map_of_mem _ ha
    have hfilter : d.incidents.filter (fun j => !(j.id == tid)) = s ++ t := by
      rw [hsplit, List.filter_append, List.filter_cons]
      have hfid : (!(inc.id == tid)) = false := by simp [hid]
      rw [hfid]
      simp only [Bool.false_eq_true, if_false]
      rw [List.filter_eq_self.mpr (by intro a ha; simpa using hs a ha),
        List.filter_eq_self.mpr (by intro a ha; simpa using ht2 a ha)]
    have hlenne : ¬ ((d.incidents.filter fun j => !(j.id == tid)).length
        = d.incidents.length) := by
      rw [hfilter, hsplit]
      simp only [List.length_append, List.length_cons]
      omega
    refine ⟨{ d with incidents := d.incidents.filter fun j => !(j.id == tid) },
      by simp only [deleteIncident]; rw [if_neg hlenne], ?_, ?_⟩
    · show (d.incidents.filter fun j => !(j.id == tid)).length + 1 = d.incidents.length
      rw [hfilter, hsplit]
      simp only [List.length_append, List.length_cons]
      omega
    · intro j hj hjid
      exact List.mem_filter.mpr ⟨hj, by simpa using hjid⟩

/-- Witness for C8: deleting i1 from a two-incident store removes exactly
that record and keeps i2. -/
theorem delete_incident_witness :
    ∃ d', deleteIncident
        { components := [wComp "c1" "operational"],
          incidents := [wIncident "i1" "investigating" [],
                        wIncident "i2" "monitoring" []],
          templates := [] } "i1" = some d' ∧
      d'.incidents.length + 1 = 2 ∧
      wIncident "i2" "monitoring" [] ∈ d'.incidents := by
  obtain ⟨-, -, hone⟩ := delete_incident_spec
    { components := [wComp "c1" "operational"],
      incidents := [wIncident "i1" "investigating" [],
                    wIncident "i2" "monitoring" []],
      templates := [] } "i1"
  obtain ⟨d', h1, h2, h3⟩ := hone (by decide)
    (wIncident "i1" "investigating" []) (by decide) (by decide)
  exact ⟨d', h1, h2, h3 (wIncident "i2" "monitoring" []) (by decide) (by decide)⟩

/-- One step of the net effect of the sweep on a tracked id list. -/
def retainAfter (resp : String → Option Nat) (ids l : List String) : List String :=
  ids.foldl
    (fun l id => if httpSuccess (resp id) then l.filter (fun i => !(i == id)) else l) l

theorem sweepIncidents_spec (resp : String → Option Nat) :
    ∀ (ids : List String) (st : SweepState),
      (sweepIncidents resp st ids).tracker.incidents
        = retainAfter resp ids st.tracker.incidents
      ∧ (sweepIncidents resp st ids).tracker.components = st.tracker.components
      ∧ (sweepIncidents resp st ids).tracker.templates = st.tracker.templates
      ∧ (sweepIncidents resp st ids).errors
        = st.errors ++ ids.filterMap
            (fun id => if httpSuccess (resp id) then none
              else some ("incident:" ++ id)) := by
  intro ids
  induction ids with
  | nil =>
    intro st
    simp [sweepIncidents, retainAfter]
  | cons id rest ih =>
    intro st
    simp only [sweepIncidents, retainAfter, List.foldl_cons, List.filterMap_cons] at *
    by_cases h : httpSuccess (resp id)
    · simp only [h, if_pos, reduceIte]
      exact (ih _)
    · simp only [h, Bool.false_eq_true, if_neg, reduceIte, not_false_eq_true]
      obtain ⟨h1, h2, h3, h4⟩ := ih
        { st with errors := st.errors ++ ["incident:" ++ id] }
      exact ⟨h1, h2, h3, by rw [h4]; simp⟩

theorem sweepTemplates_spec (resp : String → Option Nat) :
    ∀ (ids : List String) (st : SweepState),
      (sweepTemplates resp st ids).tracker.templates
        = retainAfter resp ids st.tracker.templates
      ∧ (sweepTemplates resp st ids).tracker.components = st.tracker.components
      ∧ (sweepTemplates resp st ids).tracker.incidents = st.tracker.incidents
      ∧ (sweepTemplates resp st ids).errors
        = st.errors ++ ids.filterMap
            (fun id => if httpSuccess (resp id) then none
              else some ("template:" ++ id)) := by
  intro ids
  induction ids with
  | nil =>
    intro st
    simp [sweepTemplates, retainAfter]
  | cons id rest ih =>
    intro st
    simp only [sweepTemplates, retainAfter, List.foldl_cons, List.filterMap_cons] at *
    by_cases h : httpSuccess (resp id)
    · simp only [h, if_pos, reduceIte]
      exact (ih _)
    · simp only [h, Bool.false_eq_true, if_neg, reduceIte, not_false_eq_true]
      obtain ⟨h1, h2, h3, h4⟩ := ih
        { st with errors := st.errors ++ ["template:" ++ id] }
      exact ⟨h1, h2, h3, by rw [h4]; simp⟩

theorem retainAfter_not_mem (resp : String → Option Nat) :
    ∀ (ids l : List String) (x : String), x ∉ l → x ∉ retainAfter resp ids l := by
  intro ids
  induction ids with
  | nil => intro l x h; exact h
  | cons id rest ih =>
    intro l x h
    simp only [retainAfter, List.foldl_cons] at *
    by_cases hs : httpSuccess (resp id)
    · rw [if_pos hs]
      exact ih _ x fun hmem => h (List.mem_of_mem_filter hmem)
    · rw [if_neg hs]
      exact ih _ x h

theorem retainAfter_removed (resp : String → Option Nat) :
    ∀ (ids l : List String) (x : String), x ∈ ids → httpSuccess (resp x) = true →
      x ∉ retainAfter resp ids l := by
  intro ids
  induction ids with
  | nil => intro l x h; simp at h
  | cons id rest ih =>
    intro l x hmem hsucc
    simp only [retainAfter, List.foldl_cons] at *
    by_cases hx : id = x
    · subst hx
      rw [if_pos hsucc]
      apply retainAfter_not_mem
      simp [List.mem_filter]
    · have hmem' : x ∈ rest := by
        rcases List.mem_cons.mp hmem with h | h
        · exact absurd h.symm hx
        · exact h
      by_cases hs : httpSuccess (resp id)
      · rw [if_pos hs]
        exact ih _ x hmem' hsucc
      · rw [if_neg hs]
        exact ih _ x hmem' hsucc

theorem retainAfter_kept (resp : String → Option Nat) :
    ∀ (ids l : List String) (x : String), x ∈ l → httpSuccess (resp x) = false →
      x ∈ retainAfter resp ids l := by
  intro ids
  induction ids with
  | nil => intro l x h _; exact h
  | cons id rest ih =>
    intro l x hmem hfail
    simp only [retainAfter, List.foldl_cons] at *
    by_cases hs : httpSuccess (resp id)
    · rw [if_pos hs]
      apply ih _ x _ hfail
      apply List.mem_filter.mpr
      refine ⟨hmem, ?_⟩
      have hne : x ≠ id := fun hh => by rw [hh] at hfail; rw [hfail] at hs; cases hs
      simp [hne]
    · rw [if_neg hs]
      exact ih _ x hmem hfail

/-- C9. Sweep retry semantics: for every tracked incident id, an HTTP
success or 404 answer to the delete call untracks the id, while any other
failure (HTTP 500, or a thrown network error) leaves the id tracked and
collects an error entry for the report; identically for tracked template
ids. -/
theorem sweep_retry (t : DemoTracker) (respInc respTmpl : String → Option Nat) :
    (∀ id ∈ t.incidents,
      (httpSuccess (respInc id) = true →
        id ∉ (runCleanup t respInc respTmpl).tracker.incidents) ∧
      (httpSuccess (respInc id) = false →
        id ∈ (runCleanup t respInc respTmpl).tracker.incidents ∧
        ("incident:" ++ id) ∈ (runCleanup t respInc respTmpl).errors)) ∧
    (∀ id ∈ t.templates,
      (httpSuccess (respTmpl id) = true →
        id ∉ (runCleanup t respInc respTmpl).tracker.templates) ∧
      (httpSuccess (respTmpl id) = false →
        id ∈ (runCleanup t respInc respTmpl).tracker.templates ∧
        ("template:" ++ id) ∈ (runCleanup t respInc respTmpl).errors)) := by
  obtain ⟨hi1, hi2, hi3, hi4⟩ := sweepIncidents_spec respInc t.incidents
    { tracker := t, deleted := [], errors := [] }
  obtain ⟨ht1, ht2, ht3, ht4⟩ := sweepTemplates_spec respTmpl t.templates
    (sweepIncidents respInc { tracker := t, deleted := [], errors := [] } t.incidents)
  have hfin : runCleanup t respInc respTmpl
      = sweepTemplates respTmpl
          (sweepIncidents respInc { tracker := t, deleted := [], errors := [] }
            t.incidents) t.templates := rfl
  constructor
  · intro id hmem
    constructor
    · intro hsucc
      rw [hfin, ht3, hi1]
      exact retainAfter_removed respInc t.incidents t.incidents id hmem hsucc
    · intro hfail
      refine ⟨?_, ?_⟩
      · rw [hfin, ht3, hi1]
        exact retainAfter_kept respInc t.incidents t.incidents id hmem hfail
      · rw [hfin, ht4, hi4]
        apply List.mem_append_left
        apply List.mem_append_right
        apply List.mem_filterMap.mpr
        exact ⟨id, hmem, by rw [hfail]; rfl⟩
  · intro id hmem
    constructor
    · intro hsucc
      rw [hfin, ht1, hi3]
      exact retainAfter_removed respTmpl t.templates t.templates id hmem hsucc
    · intro hfail
      refine ⟨?_, ?_⟩
      · rw [hfin, ht1, hi3]
        exact retainAfter_kept respTmpl t.templates t.templates id hmem hfail
      · rw [hfin, ht4]
        apply List.mem_append_right
        apply List.mem_filterMap.mpr
        exact ⟨id, hmem, by rw [hfail]; rfl⟩

/-- Witness for C9: with incident a answering 500, incident b answering
404, and template t1 answering 204, the sweep keeps a tracked with an
error entry and untracks b and t1. -/
theorem sweep_retry_witness :
    ("a" ∈ (runCleanup
        { incidents := ["a", "b"], components := [], templates := ["t1"],
          lastCleanup := none }
        (fun id => if id = "a" then some 500 else some 404)
        (fun _ => some 204)).tracker.incidents ∧
      ("incident:" ++ "a") ∈ (runCleanup
        { incidents := ["a", "b"], components := [], templates := ["t1"],
          lastCleanup := none }
        (fun id => if id = "a" then some 500 else some 404)
        (fun _ => some 204)).errors) ∧
    "b" ∉ (runCleanup
        { incidents := ["a", "b"], components := [], templates := ["t1"],
          lastCleanup := none }
        (fun id => if id = "a" then some 500 else some 404)
        (fun _ => some 204)).tracker.incidents ∧
    "t1" ∉ (runCleanup
        { incidents := ["a", "b"], components := [], templates := ["t1"],
          lastCleanup := none }
        (fun id => if id = "a" then some 500 else some 404)
        (fun _ => some 204)).tracker.templates := by
  obtain ⟨hinc, htmpl⟩ := sweep_retry
    { incidents := ["a", "b"], components := [], templates := ["t1"],
      lastCleanup := none }
    (fun id => if id = "a" then some 500 else some 404)
    (fun _ => some 204)
  refine ⟨?_, ?_, ?_⟩
  · exact (hinc "a" (by decide)).2 (by decide)
  · exact (hinc "b" (by decide)).1 (by decide)
  · exact (htmpl "t1" (by decide)).1 (by decide)

theorem nodup_append_singleton {l : List String} {id : String}
    (h : l.Nodup) (hmem : id ∉ l) : (l ++ [id]).Nodup := by
  apply List.nodup_append.mpr
  refine ⟨h, List.nodup_singleton id, ?_⟩
  intro a ha hb
  rw [List.mem_singleton.mp hb] at ha
  exact hmem ha

theorem applyTrackerOp_nodup (demo : Bool) (t : DemoTracker) (op : TrackerOp)
    (h : t.incidents.Nodup ∧ t.components.Nodup ∧ t.templates.Nodup) :
    (applyTrackerOp demo t op).incidents.Nodup ∧
    (applyTrackerOp demo t op).components.Nodup ∧
    (applyTrackerOp demo t op).templates.Nodup := by
  obtain ⟨h1, h2, h3⟩ := h
  cases op with
  | trackInc id =>
    simp only [applyTrackerOp, trackIncident]
    by_cases hd : demo
    · simp only [hd, Bool.not_true, Bool.false_eq_true, if_neg, not_false_eq_true,
        reduceIte]
      by_cases hc : t.incidents.contains id
      · have hmem : id ∈ t.incidents := by simpa using hc
        simp [hmem, h1, h2, h3]
      · simp only [hc, Bool.false_eq_true, if_neg, not_false_eq_true, reduceIte]
        refine ⟨nodup_append_singleton h1 ?_, h2, h3⟩
        simpa using hc
    · simp [hd, h1, h2, h3]
  | trackComp id =>
    simp only [applyTrackerOp, trackComponent]
    by_cases hd : demo
    · simp only [hd, Bool.not_true, Bool.false_eq_true, if_neg, not_false_eq_true,
        reduceIte]
      by_cases hc : t.components.contains id
      · have hmem : id ∈ t.components := by simpa using hc
        simp [hmem, h1, h2, h3]
      · simp only [hc, Bool.false_eq_true, if_neg, not_false_eq_true, reduceIte]
        refine ⟨h1, nodup_append_singleton h2 ?_, h3⟩
        simpa using hc
    · simp [hd, h1, h2, h3]
  | trackTmpl id =>
    simp only [applyTrackerOp, trackTemplate]
    by_cases hd : demo
    · simp only [hd, Bool.not_true, Bool.false_eq_true, if_neg, not_false_eq_true,
        reduceIte]
      by_cases hc : t.templates.contains id
      · have hmem : id ∈ t.templates := by simpa using hc
        simp [hmem, h1, h2, h3]
      · simp only [hc, Bool.false_eq_true, if_neg, not_false_eq_true, reduceIte]
        refine ⟨h1, h2, nodup_append_singleton h3 ?_⟩
        simpa using hc
    · simp [hd, h1, h2, h3]
  | removeInc id => exact ⟨h1.filter _, h2, h3⟩
  | removeComp id => exact ⟨h1, h2.filter _, h3⟩
  | removeTmpl id => exact ⟨h1, h2, h3.filter _⟩
  | clearAll now => exact ⟨List.nodup_nil, List.nodup_nil, List.nodup_nil⟩

/-- C10. Tracker no-duplicates invariant: starting from the empty tracker
document, any sequence of tracker operations (track, remove, clear, under
either state of the demo flag) leaves each of the three id lists free of
duplicates, because every track appends only when the id is absent and
every remove filters. -/
theorem tracker_nodup (demo : Bool) (ops : List TrackerOp) :
    ((ops.foldl (applyTrackerOp demo) emptyTracker).incidents).Nodup ∧
    ((ops.foldl (applyTrackerOp demo) emptyTracker).components).Nodup ∧
    ((ops.foldl (applyTrackerOp demo) emptyTracker).templates).Nodup := by
  have hfold : ∀ (ops : List TrackerOp) (t : DemoTracker),
      (t.incidents.Nodup ∧ t.components.Nodup ∧ t.templates.Nodup) →
      ((ops.foldl (applyTrackerOp demo) t).incidents.Nodup ∧
       (ops.foldl (applyTrackerOp demo) t).components.Nodup ∧
       (ops.foldl (applyTrackerOp demo) t).templates.Nodup) := by
    intro ops
    induction ops with
    | nil => intro t h; exact h
    | cons op rest ih =>
      intro t h
      exact ih _ (applyTrackerOp_nodup demo t op h)
  exact hfold ops emptyTracker
    ⟨List.nodup_nil, List.nodup_nil, List.nodup_nil⟩

end StatusPage
